import Mathlib

/-!
Verification development for the foodies-backend recipe API.

Source files embedded here:
* `src/routes/recipeRouter.js` — the Express recipe router (route registrations,
  middleware chains, handlers), embedded as the `Route` list `recipeRouter`.
* `src/schemas/categorySchema.js` — the Joi category creation schema, embedded
  as `createCategorySchema`.
* `src/models/user` (shipped unnamed) — the Sequelize `User` model with its
  declared column constraints, embedded as `UserRec` together with
  `insertUser` / `updateUser` enforcing those constraints.

The favorites service (controllers, recipe/pagination schemas) is referenced by
the router but its implementation file is not part of the sources; those
operations are modelled from the specification, as marked on each definition.
-/

namespace Foodies

/-- Error taxonomy used across the API (specification section 7):
NotFound (404), Conflict (409), BadRequest / validation (400). -/
inductive Err where
  | notFound
  | conflict
  | badRequest
  deriving DecidableEq, Repr

/-- A favorite join record: `(userId, recipeId)` plus the favorited-at
timestamp (modelled as a logical clock value). -/
structure Fav where
  userId : Nat
  recipeId : Nat
  favAt : Nat
  deriving DecidableEq, Repr

/-- Stored state relevant to the favorites service: the set of existing recipe
ids, the favorite join records (newest first), and a logical clock used to
stamp new favorites. -/
structure DB where
  recipes : List Nat
  favorites : List Fav
  clock : Nat
  deriving DecidableEq, Repr

/-- Does the pair `(u, r)` occur among the stored favorites? -/
def hasPair (u r : Nat) (db : DB) : Bool :=
  db.favorites.any (fun f => f.userId == u && f.recipeId == r)

/-- Number of stored favorite records matching the pair `(u, r)`. -/
def pairCount (u r : Nat) (db : DB) : Nat :=
  (db.favorites.filter (fun f => f.userId == u && f.recipeId == r)).length

/-- Total number of stored favorite records. -/
def favCount (db : DB) : Nat :=
  db.favorites.length

/-- Modelled from the spec: `addToFavorites(userId, recipeId)` — the
controller implementation is not among the sources. Fails with NotFound if
the recipe does not exist; fails with Conflict if the pair already exists;
otherwise creates the pair (stamped with the current clock) and returns the
new state. -/
def addToFavorites (u r : Nat) (db : DB) : Except Err DB :=
  if r ∈ db.recipes then
    if hasPair u r db then
      .error .conflict
    else
      .ok { db with
              favorites := ⟨u, r, db.clock⟩ :: db.favorites,
              clock := db.clock + 1 }
  else
    .error .notFound

/-- Modelled from the spec: `removeFromFavorites(userId, recipeId)` — the
controller implementation is not among the sources. Fails with NotFound if
the recipe does not exist; fails with Conflict if the pair does not exist;
otherwise deletes the pair. -/
def removeFromFavorites (u r : Nat) (db : DB) : Except Err DB :=
  if r ∈ db.recipes then
    if hasPair u r db then
      .ok { db with
              favorites :=
                db.favorites.filter
                  (fun f => !(f.userId == u && f.recipeId == r)) }
    else
      .error .conflict
  else
    .error .notFound

/-- The stored state after a call: the new state on success, the unchanged
old state on error (a failed call performs no mutation). -/
def stateAfter (res : Except Err DB) (db : DB) : DB :=
  match res with
  | .ok db2 => db2
  | .error _ => db

theorem hasPair_iff (u r : Nat) (db : DB) :
    hasPair u r db = true ↔ ∃ f ∈ db.favorites, f.userId = u ∧ f.recipeId = r := by
  simp [hasPair, List.any_eq_true]

/-- C1: `addToFavorites(u, r)` fails with NotFound when recipe `r` does not
exist, fails with Conflict when the pair `(u, r)` already exists, and
otherwise creates exactly one `(u, r)` pair and returns success; a second
identical add fails with Conflict and leaves the state unchanged, so over the
two calls the stored favorites count increases by exactly one, not two. -/
theorem addToFavorites_notFound_conflict_once (u r : Nat) (db : DB) :
    (r ∉ db.recipes → addToFavorites u r db = .error .notFound) ∧
    (r ∈ db.recipes → (∃ f ∈ db.favorites, f.userId = u ∧ f.recipeId = r) →
      addToFavorites u r db = .error .conflict) ∧
    (r ∈ db.recipes → (¬ ∃ f ∈ db.favorites, f.userId = u ∧ f.recipeId = r) →
      ∃ db2, addToFavorites u r db = .ok db2 ∧
        favCount db2 = favCount db + 1 ∧
        pairCount u r db2 = 1 ∧
        addToFavorites u r db2 = .error .conflict ∧
        favCount (stateAfter (addToFavorites u r db2) db2) = favCount db + 1) := by
  refine ⟨fun hnr => ?_, fun hr hex => ?_, fun hr hnex => ?_⟩
  · simp [addToFavorites, hnr]
  · have hp : hasPair u r db = true := (hasPair_iff u r db).mpr hex
    simp [addToFavorites, hr, hp]
  · have hp : hasPair u r db = false := by
      rw [← Bool.not_eq_true, hasPair_iff]
      exact hnex
    refine ⟨{ db with favorites := ⟨u, r, db.clock⟩ :: db.favorites,
                      clock := db.clock + 1 },
      by simp [addToFavorites, hr, hp], ?_, ?_, ?_⟩
    · simp [favCount]
    · have hp0 : (db.favorites.filter
          (fun f => f.userId == u && f.recipeId == r)).length = 0 := by
        rw [List.length_eq_zero, List.filter_eq_nil_iff]
        intro f hf
        simp only [Bool.and_eq_true, beq_iff_eq]
        intro hc
        exact hnex ⟨f, hf, hc.1, hc.2⟩
      simp [pairCount, List.filter_cons, hp0]
    · have hp2 : hasPair u r
          { db with favorites := ⟨u, r, db.clock⟩ :: db.favorites,
                    clock := db.clock + 1 } = true := by
        simp [hasPair]
      constructor
      · simp [addToFavorites, hr, hp, hp2]
      · simp [addToFavorites, hr, hp, hp2, stateAfter, favCount]

/-- Concrete instantiation of the C1 theorem: in a state with recipe `5` and
no favorites, user `1` successfully favorites recipe `5`, the count rises to
one, and the repeated add is rejected with Conflict. -/
theorem addToFavorites_notFound_conflict_once_witness :
    ∃ db2, addToFavorites 1 5 ⟨[5], [], 0⟩ = .ok db2 ∧
      favCount db2 = favCount ⟨[5], [], 0⟩ + 1 ∧
      pairCount 1 5 db2 = 1 ∧
      addToFavorites 1 5 db2 = .error .conflict ∧
      favCount (stateAfter (addToFavorites 1 5 db2) db2) =
        favCount ⟨[5], [], 0⟩ + 1 :=
  (addToFavorites_notFound_conflict_once 1 5 ⟨[5], [], 0⟩).2.2
    (by decide) (by decide)

/-- C2: When the pair `(u, r)` is not stored, `removeFromFavorites(u, r)`
fails — with NotFound (recipe absent) or Conflict (pair absent) — and the
stored state after the call equals the stored state before it. -/
theorem removeFromFavorites_missing_pair (u r : Nat) (db : DB)
    (h : ¬ ∃ f ∈ db.favorites, f.userId = u ∧ f.recipeId = r) :
    (∃ e, removeFromFavorites u r db = .error e ∧
      (e = Err.notFound ∨ e = Err.conflict)) ∧
    stateAfter (removeFromFavorites u r db) db = db := by
  have hp : hasPair u r db = false := by
    rw [← Bool.not_eq_true, hasPair_iff]
    exact h
  by_cases hr : r ∈ db.recipes
  · refine ⟨⟨Err.conflict, by simp [removeFromFavorites, hr, hp], Or.inr rfl⟩, ?_⟩
    simp [removeFromFavorites, hr, hp, stateAfter]
  · refine ⟨⟨Err.notFound, by simp [removeFromFavorites, hr], Or.inl rfl⟩, ?_⟩
    simp [removeFromFavorites, hr, stateAfter]

/-- Concrete instantiation of the C2 theorem: removing a never-added favorite
from a one-recipe state fails and leaves the state unchanged. -/
theorem removeFromFavorites_missing_pair_witness :
    (∃ e, removeFromFavorites 1 5 ⟨[5], [], 0⟩ = .error e ∧
      (e = Err.notFound ∨ e = Err.conflict)) ∧
    stateAfter (removeFromFavorites 1 5 ⟨[5], [], 0⟩) ⟨[5], [], 0⟩ =
      ⟨[5], [], 0⟩ :=
  removeFromFavorites_missing_pair 1 5 ⟨[5], [], 0⟩ (by decide)

/-- A raw pagination query value as supplied by a client: an integer, or a
value that is not an integer. -/
inductive QueryVal where
  | int (n : Int)
  | nonInt
  deriving DecidableEq, Repr

/-- Is a supplied page/limit value invalid, i.e. non-positive or not an
integer? An absent value is not invalid: the default applies instead. -/
def badParam (q : Option QueryVal) : Bool :=
  match q with
  | none => false
  | some (.int n) => decide (n ≤ 0)
  | some .nonInt => true

/-- Modelled from the spec: validation of one pagination parameter (the
pagination schema file is not among the sources). Absent values take the
default; non-positive or non-integer values are rejected with BadRequest. -/
def parseParam (dflt : Nat) (q : Option QueryVal) : Except Err Nat :=
  match q with
  | none => .ok dflt
  | some (.int n) => if n ≤ 0 then .error .badRequest else .ok n.toNat
  | some .nonInt => .error .badRequest

/-- Modelled from the spec: pagination query validation with defaults
page = 1 and limit = 10. -/
def parsePagination (page limit : Option QueryVal) : Except Err (Nat × Nat) :=
  match parseParam 1 page, parseParam 10 limit with
  | .ok p, .ok l => .ok (p, l)
  | .error e, _ => .error e
  | .ok _, .error e => .error e

/-- The favorite records of user `u`, in stored order (newest first). -/
def favsOf (u : Nat) (db : DB) : List Fav :=
  db.favorites.filter (fun f => f.userId == u)

/-- The 1-based page `p` of the favorites of user `u` with page size `l`. -/
def favPage (u p l : Nat) (db : DB) : List Fav :=
  ((favsOf u db).drop ((p - 1) * l)).take l

/-- Modelled from the spec: `listFavorites(userId, page, limit)` — the
controller implementation is not among the sources. Validates pagination,
then returns the requested page of the favorited recipes of the user, joined
through the favorites relation, newest favorite first. -/
def listFavorites (u : Nat) (page limit : Option QueryVal) (db : DB) :
    Except Err (List Nat) :=
  match parsePagination page limit with
  | .error e => .error e
  | .ok (p, l) => .ok ((favPage u p l db).map (fun f => f.recipeId))

/-- State invariant: favorites are stored newest first, i.e. favorited-at
stamps strictly decrease along the stored list. -/
abbrev FavSorted (db : DB) : Prop :=
  db.favorites.Pairwise (fun a b => b.favAt < a.favAt)

/-- State invariant: `(userId, recipeId)` pairs are unique among the stored
favorites. -/
abbrev PairUnique (db : DB) : Prop :=
  db.favorites.Pairwise (fun a b => ¬(a.userId = b.userId ∧ a.recipeId = b.recipeId))

theorem parseParam_cases (d : Nat) (q : Option QueryVal) :
    (parseParam d q = .error Err.badRequest ∧ badParam q = true) ∨
    ((∃ k, parseParam d q = .ok k) ∧ badParam q = false) := by
  cases q with
  | none => exact Or.inr ⟨⟨d, rfl⟩, rfl⟩
  | some v =>
    cases v with
    | int n =>
      by_cases h : n ≤ 0
      · exact Or.inl ⟨by simp [parseParam, h], by simp [badParam, h]⟩
      · exact Or.inr ⟨⟨n.toNat, by simp [parseParam, h]⟩, by simp [badParam, h]⟩
    | nonInt => exact Or.inl ⟨rfl, rfl⟩

theorem favPage_sublist (u p l : Nat) (db : DB) :
    List.Sublist (favPage u p l db) db.favorites :=
  ((List.take_sublist _ _).trans (List.drop_sublist _ _)).trans
    (List.filter_sublist _)

/-- C3: `listFavorites` uses page = 1 and limit = 10 when the parameters
are unspecified; it fails with BadRequest exactly when a supplied page or
limit is non-positive or not an integer; on success it returns the favorited
recipes of the user ordered by favorited-at time descending. -/
theorem listFavorites_defaults_badRequest_order (u : Nat)
    (page limit : Option QueryVal) (db : DB) (hs : FavSorted db) :
    listFavorites u none none db =
      .ok ((favPage u 1 10 db).map (fun f => f.recipeId)) ∧
    (listFavorites u page limit db = .error Err.badRequest ↔
      (badParam page || badParam limit) = true) ∧
    (∀ p l, parsePagination page limit = .ok (p, l) →
      listFavorites u page limit db =
        .ok ((favPage u p l db).map (fun f => f.recipeId)) ∧
      (favPage u p l db).Pairwise (fun a b => b.favAt < a.favAt) ∧
      ∀ f ∈ favPage u p l db, f ∈ db.favorites ∧ f.userId = u) := by
  refine ⟨rfl, ?_, ?_⟩
  · rcases parseParam_cases 1 page with ⟨he₁, hb₁⟩ | ⟨⟨p, hp⟩, hb₁⟩ <;>
      rcases parseParam_cases 10 limit with ⟨he₂, hb₂⟩ | ⟨⟨l, hl⟩, hb₂⟩ <;>
      simp_all [listFavorites, parsePagination]
  · intro p l hok
    refine ⟨by simp [listFavorites, hok], ?_, ?_⟩
    · exact List.Pairwise.sublist (favPage_sublist u p l db) hs
    · intro f hf
      have hmem : f ∈ favsOf u db :=
        ((List.take_sublist _ _).trans (List.drop_sublist _ _)).mem hf
      have := List.mem_filter.mp hmem
      exact ⟨this.1, by simpa using this.2⟩

/-- Concrete instantiation of the C3 theorem at a sorted two-favorite state
with an explicit invalid limit parameter. -/
theorem listFavorites_defaults_badRequest_order_witness :
    listFavorites 1 none none ⟨[5, 7], [⟨1, 7, 1⟩, ⟨1, 5, 0⟩], 2⟩ =
      .ok ((favPage 1 1 10 ⟨[5, 7], [⟨1, 7, 1⟩, ⟨1, 5, 0⟩], 2⟩).map
        (fun f => f.recipeId)) ∧
    (listFavorites 1 (some (.int 3)) (some (.int 0))
        ⟨[5, 7], [⟨1, 7, 1⟩, ⟨1, 5, 0⟩], 2⟩ = .error Err.badRequest ↔
      (badParam (some (.int 3)) || badParam (some (.int 0))) = true) ∧
    (∀ p l, parsePagination (some (.int 3)) (some (.int 0)) = .ok (p, l) →
      listFavorites 1 (some (.int 3)) (some (.int 0))
          ⟨[5, 7], [⟨1, 7, 1⟩, ⟨1, 5, 0⟩], 2⟩ =
        .ok ((favPage 1 p l ⟨[5, 7], [⟨1, 7, 1⟩, ⟨1, 5, 0⟩], 2⟩).map
          (fun f => f.recipeId)) ∧
      (favPage 1 p l ⟨[5, 7], [⟨1, 7, 1⟩, ⟨1, 5, 0⟩], 2⟩).Pairwise
        (fun a b => b.favAt < a.favAt) ∧
      ∀ f ∈ favPage 1 p l ⟨[5, 7], [⟨1, 7, 1⟩, ⟨1, 5, 0⟩], 2⟩,
        f ∈ ([⟨1, 7, 1⟩, ⟨1, 5, 0⟩] : List Fav) ∧ f.userId = 1) :=
  listFavorites_defaults_badRequest_order 1 (some (.int 3)) (some (.int 0))
    ⟨[5, 7], [⟨1, 7, 1⟩, ⟨1, 5, 0⟩], 2⟩ (by decide)

theorem favsOf_ids_nodup (u : Nat) (db : DB) (hu : PairUnique db) :
    ((favsOf u db).map (fun f => f.recipeId)).Nodup := by
  have h1 : (favsOf u db).Pairwise
      (fun a b => ¬(a.userId = b.userId ∧ a.recipeId = b.recipeId)) :=
    List.Pairwise.sublist (List.filter_sublist _) hu
  have h2 : ∀ f ∈ favsOf u db, f.userId = u := by
    intro f hf
    simpa using (List.mem_filter.mp hf).2
  have h3 : (favsOf u db).Pairwise (fun a b => a.recipeId ≠ b.recipeId) := by
    refine h1.imp_of_mem ?_
    intro a b ha hb hnab hr
    exact hnab ⟨(h2 a ha).trans (h2 b hb).symm, hr⟩
  exact List.pairwise_map.mpr h3

/-- C4: With limit 10, page 1 of the favorites of a user has at most 10 items;
page 2 is disjoint from page 1 (no recipe id occurs in both) and the two
pages together are the first 20 entries of the same ordered sequence, i.e.
page 2 is the next slice. -/
theorem listFavorites_pages_disjoint (u : Nat) (db : DB) (hu : PairUnique db) :
    (favPage u 1 10 db).length ≤ 10 ∧
    listFavorites u (some (.int 1)) (some (.int 10)) db =
      .ok ((favPage u 1 10 db).map (fun f => f.recipeId)) ∧
    listFavorites u (some (.int 2)) (some (.int 10)) db =
      .ok ((favPage u 2 10 db).map (fun f => f.recipeId)) ∧
    List.Disjoint ((favPage u 1 10 db).map (fun f => f.recipeId))
      ((favPage u 2 10 db).map (fun f => f.recipeId)) ∧
    favPage u 1 10 db ++ favPage u 2 10 db = (favsOf u db).take 20 := by
  have hids := favsOf_ids_nodup u db hu
  have hpage1 : favPage u 1 10 db = (favsOf u db).take 10 := by
    norm_num [favPage]
  have hpage2 : favPage u 2 10 db = ((favsOf u db).drop 10).take 10 := by
    norm_num [favPage]
  refine ⟨?_, ?_, ?_, ?_, ?_⟩
  · rw [hpage1]; exact List.length_take_le _ _
  · norm_num [listFavorites, parsePagination, parseParam]
    rfl
  · norm_num [listFavorites, parsePagination, parseParam]
    rfl
  · rw [hpage1, hpage2]
    have hd : List.Disjoint
        (((favsOf u db).map (fun f => f.recipeId)).take 10)
        (((favsOf u db).map (fun f => f.recipeId)).drop 10) :=
      List.disjoint_take_drop hids le_rfl
    intro x hx hx2
    simp only [List.map_take, List.map_drop] at hx hx2
    exact hd hx ((List.take_subset _ _) hx2)
  · rw [hpage1, hpage2]
    simpa using (List.take_add (favsOf u db) 10 10).symm

/-- Concrete instantiation of the C4 theorem at a three-favorite state. -/
theorem listFavorites_pages_disjoint_witness :
    (favPage 1 1 10 ⟨[5, 7, 9], [⟨1, 9, 2⟩, ⟨1, 7, 1⟩, ⟨1, 5, 0⟩], 3⟩).length ≤ 10 ∧
    listFavorites 1 (some (.int 1)) (some (.int 10))
        ⟨[5, 7, 9], [⟨1, 9, 2⟩, ⟨1, 7, 1⟩, ⟨1, 5, 0⟩], 3⟩ =
      .ok ((favPage 1 1 10 ⟨[5, 7, 9], [⟨1, 9, 2⟩, ⟨1, 7, 1⟩, ⟨1, 5, 0⟩], 3⟩).map
        (fun f => f.recipeId)) ∧
    listFavorites 1 (some (.int 2)) (some (.int 10))
        ⟨[5, 7, 9], [⟨1, 9, 2⟩, ⟨1, 7, 1⟩, ⟨1, 5, 0⟩], 3⟩ =
      .ok ((favPage 1 2 10 ⟨[5, 7, 9], [⟨1, 9, 2⟩, ⟨1, 7, 1⟩, ⟨1, 5, 0⟩], 3⟩).map
        (fun f => f.recipeId)) ∧
    List.Disjoint
      ((favPage 1 1 10 ⟨[5, 7, 9], [⟨1, 9, 2⟩, ⟨1, 7, 1⟩, ⟨1, 5, 0⟩], 3⟩).map
        (fun f => f.recipeId))
      ((favPage 1 2 10 ⟨[5, 7, 9], [⟨1, 9, 2⟩, ⟨1, 7, 1⟩, ⟨1, 5, 0⟩], 3⟩).map
        (fun f => f.recipeId)) ∧
    favPage 1 1 10 ⟨[5, 7, 9], [⟨1, 9, 2⟩, ⟨1, 7, 1⟩, ⟨1, 5, 0⟩], 3⟩ ++
        favPage 1 2 10 ⟨[5, 7, 9], [⟨1, 9, 2⟩, ⟨1, 7, 1⟩, ⟨1, 5, 0⟩], 3⟩ =
      (favsOf 1 ⟨[5, 7, 9], [⟨1, 9, 2⟩, ⟨1, 7, 1⟩, ⟨1, 5, 0⟩], 3⟩).take 20 :=
  listFavorites_pages_disjoint 1
    ⟨[5, 7, 9], [⟨1, 9, 2⟩, ⟨1, 7, 1⟩, ⟨1, 5, 0⟩], 3⟩ (by decide)

/-- Number of stored favorites pointing at recipe `r` (its favorite count). -/
def favCountOf (r : Nat) (db : DB) : Nat :=
  (db.favorites.filter (fun f => f.recipeId == r)).length

/-- The popularity ordering on recipe ids in state `db`: `popRel db a b`
holds when `a` has at least as many favorites as `b`. -/
def popRel (db : DB) (a b : Nat) : Prop :=
  favCountOf b db ≤ favCountOf a db

instance (db : DB) : DecidableRel (popRel db) :=
  fun _ _ => Nat.decLe _ _

instance (db : DB) : IsTotal Nat (popRel db) :=
  ⟨fun _ _ => Nat.le_total _ _⟩

instance (db : DB) : IsTrans Nat (popRel db) :=
  ⟨fun _ _ _ h1 h2 => Nat.le_trans h2 h1⟩

/-- Modelled from the spec: `listPopularRecipes()` — the controller
implementation is not among the sources. Returns the stored recipes ranked
by favorite count descending (tie-break left to the sort). -/
def listPopularRecipes (db : DB) : List Nat :=
  db.recipes.insertionSort (popRel db)

/-- C5: The list returned by `listPopularRecipes` is sorted by favorite
count in descending order: at any later position the favorite count is at
most the count at any earlier position, so a recipe with strictly more
favorites never appears after one with fewer; the result is a permutation of
the stored recipes. -/
theorem listPopularRecipes_sorted_desc (db : DB) :
    (listPopularRecipes db).Pairwise
      (fun a b => favCountOf b db ≤ favCountOf a db) ∧
    (∀ i j : Fin (listPopularRecipes db).length, i < j →
      favCountOf ((listPopularRecipes db).get j) db ≤
        favCountOf ((listPopularRecipes db).get i) db) ∧
    (listPopularRecipes db).Perm db.recipes := by
  have hs : (listPopularRecipes db).Pairwise
      (fun a b => favCountOf b db ≤ favCountOf a db) :=
    List.sorted_insertionSort (popRel db) db.recipes
  exact ⟨hs, fun i j hij => List.pairwise_iff_get.mp hs i j hij,
    List.perm_insertionSort (popRel db) db.recipes⟩

/-- Concrete instantiation of the C5 theorem: with recipes `[5, 7]` and one
favorite on `7`, the second returned recipe has at most the favorite count of
the first. -/
theorem listPopularRecipes_sorted_desc_witness :
    favCountOf ((listPopularRecipes ⟨[5, 7], [⟨1, 7, 0⟩], 1⟩).get
        ⟨1, by decide⟩) ⟨[5, 7], [⟨1, 7, 0⟩], 1⟩ ≤
      favCountOf ((listPopularRecipes ⟨[5, 7], [⟨1, 7, 0⟩], 1⟩).get
        ⟨0, by decide⟩) ⟨[5, 7], [⟨1, 7, 0⟩], 1⟩ :=
  (listPopularRecipes_sorted_desc ⟨[5, 7], [⟨1, 7, 0⟩], 1⟩).2.1
    ⟨0, by decide⟩ ⟨1, by decide⟩ (by decide)

/-- An HTTP method used by the recipe router. -/
inductive Method where
  | get
  | post
  | delete
  deriving DecidableEq, Repr

/-- One segment of a registered route path: a literal segment or a named
path parameter (Express `:name`). -/
inductive Seg where
  | lit (s : String)
  | param (s : String)
  deriving DecidableEq, Repr

/-- Identifier of a request-body schema imported by the router
(`addToFavorites` and `createRecipeSchema` from the recipe schema module). -/
inductive SchemaId where
  | addToFavorites
  | createRecipeSchema
  deriving DecidableEq, Repr

/-- Identifier of a query schema imported by the router. -/
inductive QSchemaId where
  | paginationSchema
  deriving DecidableEq, Repr

/-- A middleware appearing in a route registration, in the order written. -/
inductive Mw where
  | auth
  | uploadSingle (field : String)
  | validateBody (s : SchemaId)
  | validateQuery (q : QSchemaId)
  deriving DecidableEq, Repr

/-- The controller handler attached to a route registration. -/
inductive Handler where
  | createRecipe
  | addToFavorites
  | deleteFromFavorites
  | getFavorites
  | deleteRecipe
  | getRecipes
  | getPopularRecipes
  | getUserRecipes
  | getRecipeById
  deriving DecidableEq, Repr

/-- One route registration: method, path (relative to `/recipes`), the
middleware chain run before the handler (in order), and the handler. -/
structure Route where
  method : Method
  path : List Seg
  mids : List Mw
  handler : Handler
  deriving DecidableEq, Repr

instance : Inhabited Route :=
  ⟨⟨.get, [], [], .getRecipes⟩⟩

/-- The recipe router, transcribed registration by registration, in source
order, from `src/routes/recipeRouter.js`. Middleware lists keep the order
they are passed to Express, and always run before the handler. -/
def recipeRouter : List Route :=
  [ ⟨.post, [],
      [.auth, .uploadSingle "thumb", .validateBody .createRecipeSchema],
      .createRecipe⟩,
    ⟨.post, [.lit "favorites"],
      [.auth, .validateBody .addToFavorites],
      .addToFavorites⟩,
    ⟨.delete, [.lit "favorites"],
      [.auth, .validateBody .addToFavorites],
      .deleteFromFavorites⟩,
    ⟨.get, [.lit "favorites"],
      [.auth, .validateQuery .paginationSchema],
      .getFavorites⟩,
    ⟨.delete, [.param "recipeId"],
      [.auth],
      .deleteRecipe⟩,
    ⟨.get, [],
      [],
      .getRecipes⟩,
    ⟨.get, [.lit "popular"],
      [],
      .getPopularRecipes⟩,
    ⟨.get, [.lit "own"],
      [.auth],
      .getUserRecipes⟩,
    ⟨.get, [.param "recipeId"],
      [],
      .getRecipeById⟩ ]

/-- Does a route run the `auth` middleware (before its handler)? -/
def usesAuth (r : Route) : Bool :=
  r.mids.contains .auth

/-- The section 6 table of the spec, as a predicate: does the spec mark the
endpoint with this method and path (relative to `/recipes`) as requiring
authentication? -/
def specRequiresAuth (m : Method) (p : List Seg) : Bool :=
  match m, p with
  | .post, [] => true
  | .post, [.lit "favorites"] => true
  | .delete, [.lit "favorites"] => true
  | .get, [.lit "favorites"] => true
  | .delete, [.param _] => true
  | .get, [] => false
  | .get, [.lit "popular"] => false
  | .get, [.lit "own"] => true
  | .get, [.param _] => false
  | _, _ => false

/-- C6: For every route of the recipe router, the `auth` middleware is in
the middleware chain of the route (which runs before the handler) exactly when
the section 6 table of the spec marks the endpoint as requiring authentication. -/
theorem recipeRouter_auth_matches_spec :
    recipeRouter.all
      (fun r => usesAuth r == specRequiresAuth r.method r.path) = true := by
  decide

/-- Does a route path segment accept a concrete request path segment? -/
def segMatches (s : Seg) (x : String) : Bool :=
  match s with
  | .lit t => t == x
  | .param _ => true

/-- Express-style path matching of a registered path against a concrete
request path, segment by segment. -/
def pathMatches : List Seg → List String → Bool
  | [], [] => true
  | s :: ss, x :: xs => segMatches s x && pathMatches ss xs
  | _, _ => false

/-- Express dispatch on the recipe router: the first registered route whose
method and path match handles the request. -/
def dispatch (m : Method) (p : List String) : Option Route :=
  recipeRouter.find? (fun r => r.method == m && pathMatches r.path p)

/-- C9: The dedicated GET routes `/favorites`, `/popular` and `/own` are
registered before the parameterized GET `/:recipeId` route, so those literal
paths dispatch to their dedicated handlers, and any request that dispatches
to `getRecipeById` has a path different from all three literals. -/
theorem static_get_routes_shadow_param_route :
    (dispatch .get ["favorites"]).map Route.handler = some .getFavorites ∧
    (dispatch .get ["popular"]).map Route.handler = some .getPopularRecipes ∧
    (dispatch .get ["own"]).map Route.handler = some .getUserRecipes ∧
    ∀ p : List String,
      (dispatch .get p).map Route.handler = some .getRecipeById →
      p ≠ ["favorites"] ∧ p ≠ ["popular"] ∧ p ≠ ["own"] := by
  refine ⟨by decide, by decide, by decide, fun p h => ⟨?_, ?_, ?_⟩⟩ <;>
    rintro rfl <;> revert h <;> decide

/-- Concrete instantiation of the C9 theorem: the request path `["abc"]`
reaches `getRecipeById`, hence is none of the reserved literals. -/
theorem static_get_routes_shadow_param_route_witness :
    (dispatch .get ["abc"]).map Route.handler = some .getRecipeById ∧
    (["abc"] : List String) ≠ ["favorites"] ∧
    (["abc"] : List String) ≠ ["popular"] ∧
    (["abc"] : List String) ≠ ["own"] :=
  ⟨by decide,
    (static_get_routes_shadow_param_route.2.2.2 ["abc"] (by decide)).1,
    (static_get_routes_shadow_param_route.2.2.2 ["abc"] (by decide)).2.1,
    (static_get_routes_shadow_param_route.2.2.2 ["abc"] (by decide)).2.2⟩

/-- The first route registered for a method and exact path pattern. -/
def routeFor (m : Method) (p : List Seg) : Option Route :=
  recipeRouter.find? (fun r => r.method == m && r.path == p)

/-- The body schema a route validates with, when one of its middlewares is a
`validateBody`. -/
def bodySchemaOf (r : Route) : Option SchemaId :=
  r.mids.findSome? (fun m =>
    match m with
    | .validateBody s => some s
    | _ => none)

/-- C10: POST `/recipes/favorites` and DELETE `/recipes/favorites`
validate their request bodies with the identical schema (`addToFavorites`),
so under any validation semantics, the remove route accepts a body exactly
when the add route does. -/
theorem favorites_routes_same_body_schema :
    (routeFor .post [.lit "favorites"]).map bodySchemaOf =
      some (some SchemaId.addToFavorites) ∧
    (routeFor .delete [.lit "favorites"]).map bodySchemaOf =
      some (some SchemaId.addToFavorites) ∧
    ∀ (Body : Type) (accept : SchemaId → Body → Bool) (b : Body)
      (r1 r2 : Route),
      routeFor .post [.lit "favorites"] = some r1 →
      routeFor .delete [.lit "favorites"] = some r2 →
      (bodySchemaOf r1).map (fun s => accept s b) =
        (bodySchemaOf r2).map (fun s => accept s b) := by
  refine ⟨by decide, by decide, fun Body accept b r1 r2 h1 h2 => ?_⟩
  have e1 : (some (⟨.post, [.lit "favorites"],
      [.auth, .validateBody .addToFavorites], .addToFavorites⟩ : Route)) =
      some r1 := by rw [← h1]; rfl
  have e2 : (some (⟨.delete, [.lit "favorites"],
      [.auth, .validateBody .addToFavorites], .deleteFromFavorites⟩ : Route)) =
      some r2 := by rw [← h2]; rfl
  cases e1
  cases e2
  rfl

/-- Concrete instantiation of the C10 theorem: under a sample validation
semantics, the two favorites routes validate a sample body identically. -/
theorem favorites_routes_same_body_schema_witness :
    (bodySchemaOf ⟨.post, [.lit "favorites"],
        [.auth, .validateBody .addToFavorites], .addToFavorites⟩).map
      (fun s => (fun (_ : SchemaId) (_ : Unit) => true) s ()) =
    (bodySchemaOf ⟨.delete, [.lit "favorites"],
        [.auth, .validateBody .addToFavorites], .deleteFromFavorites⟩).map
      (fun s => (fun (_ : SchemaId) (_ : Unit) => true) s ()) :=
  favorites_routes_same_body_schema.2.2 Unit (fun _ _ => true) () _ _ rfl rfl

/-- A JSON value as far as the Joi string rules distinguish them: a string,
or any non-string value (number, object, null, ...). -/
inductive JVal where
  | str (s : String)
  | nonStr
  deriving DecidableEq, Repr

/-- A category creation payload: the three fields the schema declares, each
possibly absent. -/
structure CategoryPayload where
  name : Option JVal
  description : Option JVal
  thumb : Option JVal
  deriving DecidableEq, Repr

/-- Joi `Joi.string().required()`: present, a string, and non-empty. -/
def joiRequiredString (v : Option JVal) : Bool :=
  match v with
  | some (.str s) => !(s == "")
  | _ => false

/-- Joi `Joi.string().optional()`: absent, or a non-empty string. -/
def joiOptionalString (v : Option JVal) : Bool :=
  match v with
  | none => true
  | some (.str s) => !(s == "")
  | some .nonStr => false

/-- Joi `Joi.string().uri().optional()`: absent, or a non-empty string in
valid URI format (URI validity abstracted as a predicate). -/
def joiOptionalUri (isUri : String → Bool) (v : Option JVal) : Bool :=
  match v with
  | none => true
  | some (.str s) => !(s == "") && isUri s
  | some .nonStr => false

/-- `createCategorySchema` from `src/schemas/categorySchema.js`: name is a
required non-empty string, description an optional non-empty string, thumb
an optional non-empty URI string. -/
def createCategorySchema (isUri : String → Bool) (p : CategoryPayload) : Bool :=
  joiRequiredString p.name &&
  joiOptionalString p.description &&
  joiOptionalUri isUri p.thumb

/-- C7: Validation against the category creation schema succeeds if and
only if the payload has a non-empty string name; description, when present,
is a non-empty string; and thumb, when present, is a non-empty string in
valid URI format. -/
theorem createCategorySchema_iff (isUri : String → Bool) (p : CategoryPayload) :
    createCategorySchema isUri p = true ↔
      ((∃ s, p.name = some (.str s) ∧ s ≠ "") ∧
       (p.description = none ∨
         ∃ s, p.description = some (.str s) ∧ s ≠ "") ∧
       (p.thumb = none ∨
         ∃ s, p.thumb = some (.str s) ∧ s ≠ "" ∧ isUri s = true)) := by
  obtain ⟨n, d, t⟩ := p
  simp only [createCategorySchema, Bool.and_eq_true]
  constructor
  · rintro ⟨⟨hn, hd⟩, ht⟩
    refine ⟨?_, ?_, ?_⟩
    · rcases n with _ | v
      · exact absurd hn (by simp [joiRequiredString])
      · rcases v with s | _
        · exact ⟨s, rfl, by simpa [joiRequiredString] using hn⟩
        · exact absurd hn (by simp [joiRequiredString])
    · rcases d with _ | v
      · exact Or.inl rfl
      · rcases v with s | _
        · exact Or.inr ⟨s, rfl, by simpa [joiOptionalString] using hd⟩
        · exact absurd hd (by simp [joiOptionalString])
    · rcases t with _ | v
      · exact Or.inl rfl
      · rcases v with s | _
        · have ht2 : ¬s = "" ∧ isUri s = true := by
            simpa [joiOptionalUri, Bool.and_eq_true] using ht
          exact Or.inr ⟨s, rfl, ht2.1, ht2.2⟩
        · exact absurd ht (by simp [joiOptionalUri])
  · rintro ⟨⟨s, rfl, hs⟩, hd, ht⟩
    refine ⟨⟨by simpa [joiRequiredString] using hs, ?_⟩, ?_⟩
    · rcases hd with rfl | ⟨s2, rfl, hs2⟩
      · rfl
      · simpa [joiOptionalString] using hs2
    · rcases ht with rfl | ⟨s3, rfl, hs3, hu3⟩
      · rfl
      · simp [joiOptionalUri, hs3, hu3]

/-- A stored `User` row, with the columns declared by the Sequelize model:
auto-incremented primary key `_id`, nullable `name` / `avatar` / `token` /
`refreshToken` / `verificationToken`, non-nullable `email` (unique, checked
against the email pattern) and `password`, boolean `verify`. Nullable
columns are `Option`; `none` is SQL NULL. -/
structure UserRec where
  _id : Nat
  name : Option String
  email : Option String
  password : Option String
  avatar : Option String
  token : Option String
  refreshToken : Option String
  verify : Bool
  verificationToken : Option String
  deriving DecidableEq, Repr

/-- Row-level validation declared on the model: `email` is non-null and must
match the email pattern (`emailOk` abstracts the `emailRegexp` constant),
and `password` is non-null. -/
def validUserRow (emailOk : String → Bool) (u : UserRec) : Bool :=
  match u.email, u.password with
  | some e, some _ => emailOk e
  | _, _ => false

/-- Largest primary key present (0 when the table is empty). -/
def maxId (db : List UserRec) : Nat :=
  db.foldr (fun v m => max v._id m) 0

/-- Modelled from the spec: insertion of a `User` row under the declared
constraints of the model (the ORM enforcement code is external to the sources).
The primary key is auto-incremented; row validation failures surface as
BadRequest and the unique-email violation as Conflict, per the error
taxonomy. -/
def insertUser (emailOk : String → Bool) (u : UserRec) (db : List UserRec) :
    Except Err (List UserRec) :=
  if validUserRow emailOk { u with _id := maxId db + 1 } then
    if db.any (fun v => v.email == u.email) then
      .error .conflict
    else
      .ok (db ++ [{ u with _id := maxId db + 1 }])
  else
    .error .badRequest

/-- Modelled from the spec: update of the `User` row with primary key `i`
under the declared constraints of the model. The updated row is re-validated and
its email checked for uniqueness against all other rows. -/
def updateUser (emailOk : String → Bool) (i : Nat) (u : UserRec)
    (db : List UserRec) : Except Err (List UserRec) :=
  if db.any (fun v => v._id == i) then
    if validUserRow emailOk { u with _id := i } then
      if db.any (fun v => !(v._id == i) && (v.email == u.email)) then
        .error .conflict
      else
        .ok (db.map (fun v => if v._id == i then { u with _id := i } else v))
    else
      .error .badRequest
  else
    .error .notFound

/-- Invariant of the user table: every row has a non-null email matching the
pattern, emails are pairwise distinct, and primary keys are pairwise
distinct. -/
def UserTableInv (emailOk : String → Bool) (db : List UserRec) : Prop :=
  (∀ v ∈ db, ∃ e, v.email = some e ∧ emailOk e = true) ∧
  db.Pairwise (fun a b => a.email ≠ b.email) ∧
  db.Pairwise (fun a b => a._id ≠ b._id)

/-- States of the user table reachable from the empty table by the insert and
update operations of the model. -/
inductive ReachableUserDB (emailOk : String → Bool) : List UserRec → Prop where
  | nil : ReachableUserDB emailOk []
  | insert {db db2 : List UserRec} {u : UserRec} :
      ReachableUserDB emailOk db → insertUser emailOk u db = .ok db2 →
      ReachableUserDB emailOk db2
  | update {db db2 : List UserRec} {i : Nat} {u : UserRec} :
      ReachableUserDB emailOk db → updateUser emailOk i u db = .ok db2 →
      ReachableUserDB emailOk db2

theorem validUserRow_email (emailOk : String → Bool) (u : UserRec)
    (h : validUserRow emailOk u = true) :
    ∃ e, u.email = some e ∧ emailOk e = true := by
  unfold validUserRow at h
  cases he : u.email with
  | none => rw [he] at h; cases u.password <;> simp at h
  | some e =>
    cases hp : u.password with
    | none => rw [he, hp] at h; simp at h
    | some p => rw [he, hp] at h; exact ⟨e, rfl, h⟩

theorem le_maxId (db : List UserRec) : ∀ v ∈ db, v._id ≤ maxId db := by
  induction db with
  | nil => simp
  | cons a t ih =>
    intro v hv
    rcases List.mem_cons.mp hv with rfl | hv
    · exact Nat.le_max_left _ _
    · exact Nat.le_trans (ih v hv) (Nat.le_max_right _ _)

theorem insertUser_inv (emailOk : String → Bool) (u : UserRec)
    (db db2 : List UserRec) (h : UserTableInv emailOk db)
    (he : insertUser emailOk u db = .ok db2) : UserTableInv emailOk db2 := by
  unfold insertUser at he
  split at he
  case isFalse => simp at he
  case isTrue hval =>
    split at he
    case isTrue => simp at he
    case isFalse hconf =>
      rw [Except.ok.injEq] at he
      subst he
      obtain ⟨hall, hem, hid⟩ := h
      have hnew : ∀ v ∈ db, v.email ≠ u.email := by
        intro v hv
        have := List.any_eq_false.mp (Bool.not_eq_true _ ▸ hconf) v hv
        simpa using this
      refine ⟨?_, ?_, ?_⟩
      · intro v hv
        rcases List.mem_append.mp hv with hv | hv
        · exact hall v hv
        · rcases List.mem_singleton.mp hv with rfl
          exact validUserRow_email emailOk _ hval
      · refine List.pairwise_append.mpr ⟨hem, by simp, ?_⟩
        intro a ha b hb
        rcases List.mem_singleton.mp hb with rfl
        exact hnew a ha
      · refine List.pairwise_append.mpr ⟨hid, by simp, ?_⟩
        intro a ha b hb
        rcases List.mem_singleton.mp hb with rfl
        have : a._id ≤ maxId db := le_maxId db a ha
        simp only []
        omega

theorem updateUser_inv (emailOk : String → Bool) (i : Nat) (u : UserRec)
    (db db2 : List UserRec) (h : UserTableInv emailOk db)
    (he : updateUser emailOk i u db = .ok db2) : UserTableInv emailOk db2 := by
  unfold updateUser at he
  split at he
  case isFalse => simp at he
  case isTrue hex =>
    split at he
    case isFalse => simp at he
    case isTrue hval =>
      split at he
      case isTrue => simp at he
      case isFalse hconf =>
        rw [Except.ok.injEq] at he
        subst he
        obtain ⟨hall, hem, hid⟩ := h
        have hother : ∀ v ∈ db, v._id ≠ i → v.email ≠ u.email := by
          intro v hv hvi
          have := List.any_eq_false.mp (Bool.not_eq_true _ ▸ hconf) v hv
          simpa [hvi] using this
        have hfid : ∀ v : UserRec,
            ((if v._id = i then { u with _id := i } else v) : UserRec)._id =
              v._id := by
          intro v
          by_cases hv : v._id = i <;> simp [hv]
        refine ⟨?_, ?_, ?_⟩
        · intro w hw
          rcases List.mem_map.mp hw with ⟨v, hv, rfl⟩
          by_cases hvi : v._id = i
          · simpa [hvi] using validUserRow_email emailOk _ hval
          · simpa [hvi] using hall v hv
        · rw [List.pairwise_map]
          refine List.Pairwise.imp_of_mem ?_ (hid.and hem)
          intro a b ha hb hab
          by_cases hai : a._id = i <;> by_cases hbi : b._id = i
          · exact absurd (hai.trans hbi.symm) hab.1
          · simpa [hai, hbi] using
              fun hc => hother b hb hbi (by simpa using hc.symm)
          · simpa [hai, hbi] using
              fun hc => hother a ha hai (by simpa using hc)
          · simpa [hai, hbi] using hab.2
        · rw [List.pairwise_map]
          refine List.Pairwise.imp_of_mem ?_ hid
          intro a b _ _ hab
          simpa [hfid a, hfid b] using hab

/-- C8: In every user-table state reachable through the insert and update
operations of the model, each stored `User` row has a non-null email matching
the validated email pattern and no two rows share an email; insert and
update preserve this invariant by construction of the reachability
predicate. -/
theorem user_email_nonNull_valid_unique (emailOk : String → Bool)
    (db : List UserRec) (h : ReachableUserDB emailOk db) :
    (∀ v ∈ db, ∃ e, v.email = some e ∧ emailOk e = true) ∧
    db.Pairwise (fun a b => a.email ≠ b.email) := by
  have hinv : UserTableInv emailOk db := by
    induction h with
    | nil => exact ⟨by simp, by simp, by simp⟩
    | insert _ he ih => exact insertUser_inv _ _ _ _ ih he
    | update _ he ih => exact updateUser_inv _ _ _ _ _ ih he
  exact ⟨hinv.1, hinv.2.1⟩

/-- Concrete instantiation of the C8 theorem: the table obtained by one
insert into the empty table satisfies the email invariant. A trivially true
pattern is used so that the reachability step evaluates by `decide`. -/
theorem user_email_nonNull_valid_unique_witness :
    (∀ v ∈ [(⟨1, none, some "a@b", some "pw", none, none, none, false, none⟩ :
        UserRec)],
      ∃ e, v.email = some e ∧ (fun _ => true) e = true) ∧
    List.Pairwise (fun a b => a.email ≠ b.email)
      [(⟨1, none, some "a@b", some "pw", none, none, none, false, none⟩ :
        UserRec)] :=
  user_email_nonNull_valid_unique (fun _ => true) _
    (ReachableUserDB.insert
      (u := ⟨0, none, some "a@b", some "pw", none, none, none, false, none⟩)
      ReachableUserDB.nil rfl)

end Foodies
